import Mathlib

/-!
# Shallow embedding of `AudioFileSourceHTTPStream` (src/src/AudioFileSourceHTTPStream.cpp)

The C++ class streams an HTTP resource.  We embed its state and the
operations `open`, `read`, `readNonBlock`, `readInternal`, `readRegular`,
`readChunked`, `getChunkSize`, `verifyCrlf`, `seek`, `close`, `isOpen`,
`getSize`, `getPos` as pure Lean functions over an explicit state.

Modelling conventions:

* Bytes are `Nat` values (0..255).  The bytes already delivered by the
  network and buffered in the `WiFiClient` are `St.stream : List Nat`;
  `client.available()` is its length.  Waiting loops do not change the
  buffer (the synthetic source delivers nothing during a wait); a result
  flag records whether a wait loop was *entered*, i.e. whether its
  condition held at the first check, which is exact regardless of timing.
* `pos` is a `Nat`; `size` and `next_chunk` are `Int` because the code
  stores `-1` sentinels in them (`http.getSize()` returns `-1` for an
  unknown length, `getChunkSize` returns `-1` on failure) and compares
  them signed (`size > 0`, `next_chunk < 0`).  C casts to `uint32_t` are
  modelled as `% 2^32` on `Int` followed by `toNat`.
* `http.connected()` is `St.connected`.  `http.end()` terminates the
  connection and discards buffered bytes.
* `HTTPClient` responses are an oracle `Env : Nat → OpenEnv`: the k-th
  call of `open` during one modelled computation is answered by `env k`
  (HTTP status, Transfer-Encoding header, declared length, and the body
  bytes the new connection delivers).  The URL string itself is not
  modelled; reconnection uses the saved URL, i.e. simply the oracle.
* The `goto retry` in `readInternal` becomes fuel-indexed recursion
  returning `Option`; `none` means the fuel ran out.
* The `data` buffer pointer is not modelled; the returned bytes are the
  `out` list of the result.  The `NULL`-buffer early exit of
  `read`/`readNonBlock` is therefore not represented.
* Logging (`audioLogger`) and the status callback (`cb.st`) have no
  state effect; the result carries a count of `STATUS_NODATA` events
  (`nodata`) and of reconnect `open` attempts (`opens`) so that the
  retry and reconnect policies can be stated.
-/

/-- Which member function `readImpl` points to (set by `open`). -/
inductive Impl where
  | regular : Impl
  | chunked : Impl
deriving DecidableEq, Repr

/-- The fields of `AudioFileSourceHTTPStream` together with the transport
state (`connected`, buffered `stream`).  `reconnectTries` is the
configured `reconnectTries` member (default 0); `reconnectDelayMs` has no
observable effect in the model and is omitted. -/
structure St where
  pos : Nat
  size : Int
  next_chunk : Int
  is_chunked : Bool
  eof : Bool
  connected : Bool
  stream : List Nat
  reconnectTries : Nat
  impl : Impl
deriving DecidableEq, Repr

/-- The oracle answer for one `http.begin`/`http.GET` exchange. -/
structure OpenEnv where
  httpOk : Bool
  hasTE : Bool
  teChunked : Bool
  contentLength : Int
  body : List Nat
deriving DecidableEq, Repr

/-- Oracle: the k-th `open` performed inside one modelled read. -/
def Env : Type := Nat → OpenEnv

/-- `Stream::readStringUntil(term)`: consumes bytes up to and including
the first occurrence of `term`; returns the bytes before it.  If `term`
never occurs, everything is consumed. -/
def readStringUntil (term : Nat) (s : List Nat) : List Nat × List Nat :=
  let pre := s.takeWhile (fun c => c ≠ term)
  (pre, (s.drop pre.length).drop 1)

/-- ASCII whitespace, as skipped by `sscanf` conversions. -/
def isSpace (c : Nat) : Bool :=
  c = 32 || c = 9 || c = 10 || c = 13 || c = 11 || c = 12

/-- Hexadecimal digit test for `%x`. -/
def isHexDigit (c : Nat) : Bool :=
  (48 ≤ c && c ≤ 57) || (65 ≤ c && c ≤ 70) || (97 ≤ c && c ≤ 102)

/-- Value of a hexadecimal digit. -/
def hexVal (c : Nat) : Nat :=
  if c ≤ 57 then c - 48 else if c ≤ 70 then c - 55 else c - 87

/-- Two's-complement reinterpretation of an `unsigned int` as `int`,
for `return val` in `getChunkSize`. -/
def toInt32 (n : Nat) : Int :=
  if n < 2 ^ 31 then (n : Int) else (n : Int) - 2 ^ 32

/-- The tail of `getChunkSize` after the two `readStringUntil` calls:
`unsigned int val = 0; ret = sscanf(length.c_str(), "%x", &val);
if (ret) return val; else return -1;`.

`sscanf` skips leading whitespace; on an empty (or all-whitespace)
input it returns `EOF` (`-1`), which is truthy in C, so `val = 0` is
returned.  A first non-whitespace character that is not a hex digit
makes `sscanf` return 0, so the function returns `-1`.  Otherwise the
maximal run of hex digits is parsed (wrapping as `unsigned int`). -/
def sscanfHex (s : List Nat) : Int :=
  match s.dropWhile isSpace with
  | [] => 0
  | c :: rest =>
    if isHexDigit c then
      toInt32 (((c :: rest).takeWhile isHexDigit).foldl
        (fun a d => (a * 16 + hexVal d) % 2 ^ 32) 0)
    else -1

/-- `getChunkSize` acting on the buffered bytes alone: waits (up to
1.5 s) for a byte, returns `-1` if none arrives, else reads the size
line and the following line feed and parses the hex size.  Result:
(value, remaining buffer, whether the wait loop was entered). -/
def getChunkSizeL (s : List Nat) : Int × List Nat × Bool :=
  if s.isEmpty then (-1, s, true)
  else
    let r1 := readStringUntil 13 s
    let r2 := readStringUntil 10 r1.2
    (sscanfHex r1.1, r2.2, false)

/-- `AudioFileSourceHTTPStream::getChunkSize` on the state. -/
def getChunkSize (st : St) : Int × St × Bool :=
  let g := getChunkSizeL st.stream
  (g.1, { st with stream := g.2.1 }, g.2.2)

/-- `AudioFileSourceHTTPStream::verifyCrlf`: reads two bytes and compares
them with `"\r\n"`.  When fewer than two bytes are buffered the C buffer
keeps indeterminate bytes; we model that case as a mismatch. -/
def verifyCrlf (st : St) : Bool × St :=
  (decide (st.stream.take 2 = [13, 10]), { st with stream := st.stream.drop 2 })

/-- `AudioFileSourceHTTPStream::close`: (on ESP32 additionally stops the
raw stream, subsumed by `http.end()`), ends the HTTP session, sets
`eof = true`, and returns `true`. -/
def closeM (st : St) : Bool × St :=
  (true, { st with connected := false, stream := [], eof := true })

/-- `AudioFileSourceHTTPStream::isOpen`. -/
def isOpenM (st : St) : Bool :=
  st.connected && !st.eof

/-- `AudioFileSourceHTTPStream::getSize` (member `size` as `uint32_t`). -/
def getSizeM (st : St) : Nat :=
  (st.size % 2 ^ 32).toNat

/-- `AudioFileSourceHTTPStream::getPos`. -/
def getPosM (st : St) : Nat :=
  st.pos

/-- `AudioFileSourceHTTPStream::seek`: prints a diagnostic and returns
`false`; the state is untouched. -/
def seekM (st : St) (p : Int) (dir : Int) : Bool × St :=
  (false, st)

/-- Result of one `open` call. -/
structure OpenRes where
  ok : Bool
  st : St
  wGCS : Bool
deriving DecidableEq, Repr

/-- `AudioFileSourceHTTPStream::open(url)` against one oracle answer.

Mirrors the source order: `pos = 0`; `http.begin`/`GET`; on a non-OK
status `http.end()` and return false; otherwise, if the
`Transfer-Encoding` header is present and equals `"chunked"`, parse the
first chunk-size header — on parse failure (`-1`) return false at once
(note: *without* `http.end()`, and without updating `is_chunked`,
`readImpl` or `size`); otherwise record the mode, then `size =
http.getSize()` and save the URL (the URL is not modelled). -/
def openModel (oe : OpenEnv) (st : St) : OpenRes :=
  let st := { st with pos := 0 }
  if !oe.httpOk then
    { ok := false, st := { st with connected := false, stream := [] }, wGCS := false }
  else
    let st := { st with connected := true, stream := oe.body }
    if oe.hasTE && oe.teChunked then
      let g := getChunkSize st
      let st := { g.2.1 with next_chunk := g.1 }
      if g.1 = -1 then
        { ok := false, st := st, wGCS := g.2.2 }
      else
        { ok := true,
          st := { st with is_chunked := true, impl := Impl.chunked, size := oe.contentLength },
          wGCS := g.2.2 }
    else
      { ok := true,
        st := { st with is_chunked := false, impl := Impl.regular, size := oe.contentLength },
        wGCS := false }

/-- The reconnect `for` loop of `readInternal`: up to `n` attempts, each
`delay(reconnectDelayMs)` then `open(saveURL)`, stopping at the first
success.  Returns (state, next oracle index, attempts made, whether any
attempt's `getChunkSize` entered its wait loop). -/
def reconnect (env : Env) : Nat → St → Nat → St × Nat × Nat × Bool
  | k, st, 0 => (st, k, 0, false)
  | k, st, n + 1 =>
    let r := openModel (env k) st
    if r.ok then (r.st, k + 1, 1, r.wGCS)
    else
      let t := reconnect env (k + 1) r.st n
      (t.1, t.2.1, t.2.2.1 + 1, t.2.2.2 || r.wGCS)

/-- Result of a modelled read: byte count returned, the bytes themselves,
the new state, the next oracle index, the number of `STATUS_NODATA`
events (one per `goto retry` taken), the number of reconnect `open`
attempts performed, and whether the 500 ms wait of `readInternal`
(`wRI`) or the 1.5 s wait of `getChunkSize` (`wGCS`) was entered. -/
structure RIRes where
  ret : Nat
  out : List Nat
  st : St
  k : Nat
  nodata : Nat
  opens : Nat
  wRI : Bool
  wGCS : Bool
deriving DecidableEq, Repr

/-- `AudioFileSourceHTTPStream::readInternal(data, len, nonBlock)`.

From the top (`retry:`): if not connected, `http.end()` and run the
reconnect loop; if still not connected return 0.  If `size > 0` and
`pos >= size` return 0.  Then the cap `if ((size > 0) && (len >
(uint32_t)(pos - size))) len = pos - size;` — note the source really
computes `pos - size`, which underflows as `uint32_t` whenever
`pos < size`.  In blocking mode wait (≈500 ms) while fewer than `len`
bytes are available.  If blocking and nothing is available: signal
`STATUS_NODATA`, `close()`, and `goto retry` (one fuel unit).  If
nothing is available return 0.  Otherwise read `min(avail, len)` bytes
and advance `pos`. -/
def readInternal (env : Env) : Nat → Nat → St → Nat → Bool → Option RIRes
  | 0, _, _, _, _ => none
  | fuel + 1, k, st0, len, nonBlock =>
    let t :=
      if st0.connected then (st0, k, 0, false)
      else reconnect env k { st0 with stream := [] } st0.reconnectTries
    let st1 := t.1
    let k1 := t.2.1
    let att := t.2.2.1
    let wg := t.2.2.2
    if !st1.connected then
      some ⟨0, [], st1, k1, 0, att, false, wg⟩
    else if 0 < st1.size ∧ st1.size ≤ (st1.pos : Int) then
      some ⟨0, [], st1, k1, 0, att, false, wg⟩
    else
      let cap : Nat := (((st1.pos : Int) - st1.size) % (2 ^ 32 : Int)).toNat
      let len1 := if 0 < st1.size ∧ cap < len then cap else len
      let avail := st1.stream.length
      let w500 := !nonBlock && decide (avail < len1)
      if !nonBlock && decide (avail = 0) then
        (readInternal env fuel k1 (closeM st1).2 len1 nonBlock).map
          (fun r => { r with nodata := r.nodata + 1, opens := r.opens + att,
                             wRI := r.wRI || w500, wGCS := r.wGCS || wg })
      else if avail = 0 then
        some ⟨0, [], st1, k1, 0, att, w500, wg⟩
      else
        let len2 := if avail < len1 then avail else len1
        some ⟨len2, st1.stream.take len2,
              { st1 with pos := st1.pos + len2, stream := st1.stream.drop len2 },
              k1, 0, att, w500, wg⟩

/-- `AudioFileSourceHTTPStream::readChunked(data, len, nonBlock)`.

If `len = 0` nothing happens.  If `len >= next_chunk` (an *unsigned*
comparison: `next_chunk` is converted to `uint32_t`): when
`next_chunk != 0`, read `next_chunk` bytes through `readInternal` and
subtract the bytes actually read; once `next_chunk` is 0, verify the
CR-LF chunk trailer (a mismatch makes the call return 0) and parse the
next chunk-size header, closing on failure.  Otherwise (`len <
next_chunk`) read `len` bytes and subtract them.  Returns the bytes
copied for this call. -/
def readChunked (env : Env) (fuel k : Nat) (st : St) (len : Nat) (nonBlock : Bool) :
    Option RIRes :=
  if len = 0 then some ⟨0, [], st, k, 0, 0, false, false⟩
  else if (st.next_chunk % (2 ^ 32 : Int)).toNat ≤ len then
    let r? : Option RIRes :=
      if st.next_chunk ≠ 0 then
        readInternal env fuel k st (st.next_chunk % (2 ^ 32 : Int)).toNat nonBlock
      else some ⟨0, [], st, k, 0, 0, false, false⟩
    r?.map (fun (r : RIRes) =>
      let st1 : St := { r.st with next_chunk := r.st.next_chunk - (r.ret : Int) }
      (if st1.next_chunk = 0 then
        let v := verifyCrlf st1
        if !v.1 then
          ⟨0, [], v.2, r.k, r.nodata, r.opens, r.wRI, r.wGCS⟩
        else
          let g := getChunkSize v.2
          let st3 := { g.2.1 with next_chunk := g.1 }
          let st4 := if g.1 < 0 then (closeM st3).2 else st3
          ⟨r.ret, r.out, st4, r.k, r.nodata, r.opens, r.wRI, r.wGCS || g.2.2⟩
      else
        ⟨r.ret, r.out, st1, r.k, r.nodata, r.opens, r.wRI, r.wGCS⟩ : RIRes))
  else
    (readInternal env fuel k st len nonBlock).map (fun r =>
      (⟨r.ret, r.out, { r.st with next_chunk := r.st.next_chunk - (r.ret : Int) },
        r.k, r.nodata, r.opens, r.wRI, r.wGCS⟩ : RIRes))

/-- Dispatch through the `readImpl` member: `readRegular` simply
delegates to `readInternal`. -/
def readImplM (env : Env) (fuel k : Nat) (st : St) (len : Nat) (nonBlock : Bool) :
    Option RIRes :=
  match st.impl with
  | Impl.regular => readInternal env fuel k st len nonBlock
  | Impl.chunked => readChunked env fuel k st len nonBlock

/-- `AudioFileSourceHTTPStream::read` (blocking). -/
def readM (env : Env) (fuel : Nat) (st : St) (len : Nat) : Option RIRes :=
  readImplM env fuel 0 st len false

/-- `AudioFileSourceHTTPStream::readNonBlock`. -/
def readNonBlockM (env : Env) (fuel : Nat) (st : St) (len : Nat) : Option RIRes :=
  readImplM env fuel 0 st len true

/-- A sequence of caller-visible blocking reads with the given request
lengths. -/
def runReads (env : Env) (fuel : Nat) : St → List Nat → Option (List (List Nat) × St)
  | st, [] => some ([], st)
  | st, l :: ls =>
    (readM env fuel st l).bind (fun r =>
      (runReads env fuel r.st ls).map (fun p => (r.out :: p.1, p.2)))

/-- An oracle whose every `open` fails at the HTTP level. -/
def emptyEnv : Env := fun _ => ⟨false, false, false, 0, []⟩

/-- The chunked test stream `"4\r\nWiki\r\n5\r\npedia\r\n0\r\n\r\n"` as bytes. -/
def wikiStream : List Nat :=
  [52, 13, 10, 87, 105, 107, 105, 13, 10, 53, 13, 10,
   112, 101, 100, 105, 97, 13, 10, 48, 13, 10, 13, 10]

/-- The decoded payload `"Wikipedia"` as bytes. -/
def wikipedia : List Nat := [87, 105, 107, 105, 112, 101, 100, 105, 97]

/-- The state built by the default constructor (before `open`; `readImpl`
is in truth uninitialised there — `regular` is a placeholder never used
before `open` assigns it). -/
def freshSt : St := ⟨0, 0, 0, false, false, false, [], 0, Impl.regular⟩

/-- Oracle answer for opening the synthetic chunked resource: status OK,
`Transfer-Encoding: chunked`, no declared length (`-1`), body
`wikiStream`. -/
def wikiEnvOpen : OpenEnv := ⟨true, true, true, -1, wikiStream⟩

/-- The session state right after `open` succeeds on the synthetic
chunked resource (first chunk header `4\r\n` already consumed). -/
def wikiSt : St := (openModel wikiEnvOpen freshSt).st

/-- Bytes of the current chunk still to deliver when `d` payload bytes
of the synthetic stream have been delivered. -/
def chunkRem (d : Nat) : Nat :=
  if d ≤ 3 then 4 - d else if d ≤ 8 then 9 - d else 0

/-- Client buffer contents after `d` payload bytes have been delivered
(chunk headers are consumed eagerly by the call that drains a chunk). -/
def streamAt (d : Nat) : List Nat :=
  if d ≤ 3 then wikiStream.drop (3 + d)
  else if d ≤ 8 then wikiStream.drop (8 + d)
  else wikiStream.drop 22

/-- The session state after `d` payload bytes of the synthetic chunked
stream have been delivered (`0 ≤ d ≤ 9`). -/
def absSt (d : Nat) : St :=
  ⟨d, -1, (chunkRem d : Int), true, false, true, streamAt d, 0, Impl.chunked⟩

/-- The closed terminal state of the synthetic chunked session. -/
def closedSt : St := ⟨9, -1, -1, true, true, false, [], 0, Impl.chunked⟩

/-- Abstraction relation for the synthetic chunked run: the state is
either `absSt d` for the number `d` of bytes delivered so far, or the
terminal closed state (then all 9 bytes were delivered). -/
def Good (st : St) (d : Nat) : Prop :=
  (d ≤ 9 ∧ st = absSt d) ∨ (d = 9 ∧ st = closedSt)

/-- Progress measure for the synthetic chunked run: positive-length
calls strictly decrease it until it reaches 0 (the closed state). -/
def mOf (st : St) (d : Nat) : Nat :=
  if st = closedSt then 0 else 10 - d

/-- C1 failing input: a bounded session (`size = 10`) that has already
delivered 5 bytes, with 20 bytes buffered. -/
def c1St : St := ⟨5, 10, 0, false, false, true, List.replicate 20 7, 0, Impl.regular⟩

/-- C2 counterexample oracle: the first reconnect `open` succeeds
(status OK, no Transfer-Encoding, empty body), every later one fails. -/
def c2Env : Env := fun k =>
  if k = 0 then ⟨true, false, false, 0, []⟩ else ⟨false, false, false, 0, []⟩

/-- C2 counterexample state: a live regular session with no buffered
data and one configured reconnect attempt. -/
def c2St : St := ⟨0, 0, 0, false, false, true, [], 1, Impl.regular⟩

/-- C3 counterexample: a live regular session about to be closed, with
one configured reconnect attempt. -/
def c3Pre : St := ⟨3, 0, 0, false, false, true, [1, 2, 3], 1, Impl.regular⟩

/-- The state right after `close()` on `c3Pre`: `eof` is true. -/
def c3St : St := (closeM c3Pre).2

/-- C3 counterexample oracle: reconnection succeeds and the new
connection has two bytes available. -/
def c3Env : Env := fun _ => ⟨true, false, false, 0, [65, 66]⟩

/-- C4 counterexample oracle answer: status OK, `Transfer-Encoding:
chunked`, but the connection delivers no bytes, so the first chunk-size
header cannot be parsed. -/
def c4Env : OpenEnv := ⟨true, true, true, -1, []⟩

/-- C6 counterexample state: chunked session, 4 bytes left in the
current chunk, and exactly the chunk payload plus its CR-LF trailer
buffered — the next chunk-size header has not arrived yet. -/
def c6St : St := ⟨0, -1, 4, true, false, true, [87, 105, 107, 105, 13, 10], 0, Impl.chunked⟩

/-- C7 counterexample state: a disconnected regular session with one
configured reconnect attempt. -/
def c7St : St := ⟨0, 0, 0, false, false, false, [], 1, Impl.regular⟩

/-- C7 counterexample oracle: every `open` gets status OK with
`Transfer-Encoding: chunked`, but the chunk-size line is `"ZZ"`
(unparsable), so `open` returns failure while the connection stays
established and two data bytes (`"AB"`) are buffered. -/
def c7Env : Env := fun _ => ⟨true, true, true, -1, [90, 90, 13, 10, 65, 66]⟩

/-- C10 witness state: chunked session with 4 bytes left in the current
chunk and 6 bytes buffered. -/
def c10St : St := ⟨0, -1, 4, true, false, true, [87, 105, 107, 105, 13, 10], 0, Impl.chunked⟩

/-- C8: for every state of the StreamSource and every pair of arguments,
`seek(pos, dir)` returns false and leaves the position and all other
session state unchanged. -/
theorem seek_returns_false_no_mutation (st : St) (p dir : Int) :
    seekM st p dir = (false, st) := rfl

/-- C9: `close()` always returns true and sets `eof` unconditionally, and
is idempotent: a second `close()` leaves the object in the same state as
the first, and `isOpen()` is false after each of the two calls. -/
theorem close_true_eof_idempotent (st : St) :
    (closeM st).1 = true ∧ (closeM st).2.eof = true ∧
    closeM (closeM st).2 = closeM st ∧
    isOpenM (closeM st).2 = false ∧ isOpenM (closeM (closeM st).2).2 = false :=
  ⟨rfl, rfl, rfl, rfl, rfl⟩

/-- C1 evaluation: a bounded session (`size = 10`, `pos = 5`) with 20
bytes buffered; a blocking `read` of 20 bytes returns all 20 and leaves
`getPos() = 25 > 10 = getSize()`.  The cap at line 218 computes
`(uint32_t)(pos - size)` — which underflows to `2^32 - 5` — instead of
`size - pos`, so it never limits the read, contradicting the comment
`// Can't read past EOF...` directly above it. -/
theorem c1_read_past_size :
    getSizeM c1St = 10 ∧ getPosM c1St = 5 ∧
    (readM emptyEnv 1 c1St 20).map RIRes.ret = some 20 ∧
    (readM emptyEnv 1 c1St 20).map (fun r => getPosM r.st) = some 25 := by
  refine ⟨by decide, by decide, by decide, by decide⟩

/-- C2 counterexample: one caller-visible blocking read during which the
`STATUS_NODATA` → `close()` → `goto retry` path is taken twice.  The
session is live with no buffered data and one configured reconnect
attempt; the first retry reconnects successfully to a connection that
again has no data, so the wait elapses again and a second transparent
retry occurs within the same call — refuting "exactly one such
transparent retry per caller-visible read call". -/
theorem c2_counterexample :
    (readM c2Env 3 c2St 1).map RIRes.nodata = some 2 ∧
    (readM c2Env 3 c2St 1).map RIRes.ret = some 0 := by
  refine ⟨by decide, by decide⟩

/-- C3 counterexample: `c3St` is the state right after `close()`, so
`eof = true`; yet the next blocking read reconnects (one configured
attempt, which succeeds) and returns 2 bytes — refuting "once eof is
true, every subsequent read call returns 0 bytes". -/
theorem c3_counterexample :
    c3St.eof = true ∧
    (readM c3Env 2 c3St 2).map RIRes.ret = some 2 ∧
    (readM c3Env 2 c3St 2).map RIRes.out = some [65, 66] := by
  refine ⟨by decide, by decide, by decide⟩

/-- C4 counterexample: `open` on a resource that answers OK with
`Transfer-Encoding: chunked` but delivers no first chunk-size header
returns failure, yet the Transport Handle is NOT released: the
connection established by the GET is still live (`connected = true`,
line 99 returns without `http.end()`). -/
theorem c4_counterexample :
    (openModel c4Env freshSt).ok = false ∧
    (openModel c4Env freshSt).st.connected = true := by
  refine ⟨by decide, by decide⟩

/-- C6 counterexample: a non-blocking read in chunked mode that drains
the current chunk enters the bounded wait loop of `getChunkSize`
(≈1.5 s) when the next chunk-size header has not arrived — refuting
"readNonBlock never enters any bounded wait loop". -/
theorem c6_counterexample :
    (readNonBlockM emptyEnv 1 c6St 4).map (fun r => r.wRI || r.wGCS) = some true ∧
    (readNonBlockM emptyEnv 1 c6St 4).map RIRes.ret = some 4 := by
  refine ⟨by decide, by decide⟩

/-- C7 counterexample: a disconnected session with `reconnectTries = 1`;
the single reconnect attempt's `open` returns failure (the chunked
first-header parse fails), so all attempts fail, yet the read does not
return 0: the failed `open` left the connection established, the final
`http.connected()` check passes, and the read returns 2 bytes. -/
theorem c7_counterexample :
    (readM c7Env 1 c7St 2).map RIRes.opens = some 1 ∧
    c7St.reconnectTries = 1 ∧
    (readM c7Env 1 c7St 2).map RIRes.ret = some 2 := by
  refine ⟨by decide, by decide, by decide⟩

/-- Helper: a read on a disconnected session with no reconnect attempts
configured returns 0 bytes at once (the reconnect loop body never
runs). -/
theorem readInternal_disc (env : Env) (fuel k : Nat) (st : St) (len : Nat) (nb : Bool)
    (hc : st.connected = false) (h0 : st.reconnectTries = 0) :
    readInternal env (fuel + 1) k st len nb =
      some ⟨0, [], { st with stream := [] }, k, 0, 0, false, false⟩ := by
  simp [readInternal, reconnect, hc, h0]

/-- C2 amended: when the bounded wait elapses with no bytes in blocking
mode, the code signals no-data, closes the session, and restarts the
read from the top; the restart is bounded by reconnection failure, not
by a one-retry cap.  With reconnection disabled (`reconnectTries = 0`,
the default) every blocking read terminates after at most one such
transparent retry, and a call that took the retry returns 0 bytes.
(`c2_counterexample` shows two retries in one call once a reconnect
succeeds with no data.) -/
theorem readInternal_retry_once_when_no_reconnect (env : Env) (st : St) (len : Nat)
    (h0 : st.reconnectTries = 0) :
    ∃ r, readInternal env 2 0 st len false = some r ∧ r.nodata ≤ 1 ∧
      (r.nodata = 1 → r.ret = 0) := by
  by_cases hc : st.connected = false
  · exact ⟨_, readInternal_disc env 1 0 st len false hc h0, by simp, by simp⟩
  · rw [Bool.not_eq_false] at hc
    show ∃ r, readInternal env (1 + 1) 0 st len false = some r ∧ _
    by_cases hsz : 0 < st.size ∧ st.size ≤ (st.pos : Int)
    · rw [readInternal]
      simp only [hc, if_true, Bool.not_true, Bool.false_eq_true, if_false, if_pos hsz]
      exact ⟨_, rfl, by simp, by simp⟩
    · by_cases hav : st.stream.length = 0
      · have hd := readInternal_disc env 0 0 (closeM st).2
          (if 0 < st.size ∧ (((st.pos : Int) - st.size) % (2 ^ 32 : Int)).toNat < len
           then (((st.pos : Int) - st.size) % (2 ^ 32 : Int)).toNat else len) false
          (by simp [closeM]) (by simp [closeM, h0])
        rw [readInternal]
        simp only [hc, if_true, Bool.not_true, Bool.false_eq_true, if_false, if_neg hsz,
          hav, Bool.not_false, hd]
        simp only [decide_eq_true_eq, if_pos rfl, Bool.and_true, Bool.true_and, Option.map_some]
        refine ⟨_, rfl, by simp, by simp⟩
      · rw [readInternal]
        simp only [hc, if_true, Bool.not_true, Bool.false_eq_true, if_false, if_neg hsz, hav,
          decide_eq_true_eq, Bool.and_eq_true, Bool.not_false, and_false, if_false, if_neg hav]
        exact ⟨_, rfl, by simp, by simp⟩

/-- C2 witness: the amended statement at a concrete input. -/
theorem readInternal_retry_once_witness :
    freshSt.reconnectTries = 0 ∧
    (∃ r, readInternal emptyEnv 2 0 freshSt 5 false = some r ∧ r.nodata ≤ 1 ∧
      (r.nodata = 1 → r.ret = 0)) :=
  ⟨rfl, readInternal_retry_once_when_no_reconnect emptyEnv freshSt 5 rfl⟩

/-- C3 amended: `close()` leaves the handle disconnected; while the
session stays disconnected and reconnection is disabled
(`reconnectTries = 0`, the default), every subsequent `read` or
`readNonBlock` returns 0 bytes, in both regular and chunked mode.  With
reconnection configured, a successful reconnect can make reads return
bytes again even though `eof` remains true (`c3_counterexample`). -/
theorem read_after_eof_disconnected_returns_zero (env : Env) (fuel : Nat) (st : St)
    (len : Nat) (nb : Bool)
    (heof : st.eof = true) (hc : st.connected = false) (h0 : st.reconnectTries = 0) :
    ∃ r, readImplM env (fuel + 1) 0 st len nb = some r ∧ r.ret = 0 ∧ r.out = [] := by
  have hd := readInternal_disc env fuel 0 st len nb hc h0
  rcases himpl : st.impl with _ | _
  · exact ⟨_, by rw [readImplM, himpl, hd], rfl, rfl⟩
  · rw [readImplM, himpl, readChunked]
    by_cases hl : len = 0
    · exact ⟨⟨0, [], st, 0, 0, 0, false, false⟩, by simp [hl], rfl, rfl⟩
    · simp only [if_neg hl]
      by_cases hbr : (st.next_chunk % (2 ^ 32 : Int)).toNat ≤ len
      · simp only [if_pos hbr]
        by_cases hnc : st.next_chunk = 0
        · simp only [hnc, if_neg (by simp : ¬ ((0 : Int) ≠ 0)), Option.map_some]
          refine ⟨_, rfl, ?_, ?_⟩ <;>
            (beta_reduce; split
             · split <;> rfl
             · rfl)
        · have hd2 := readInternal_disc env fuel 0 st
            ((st.next_chunk % (2 ^ 32 : Int)).toNat) nb hc h0
          simp only [if_pos hnc, hd2, Option.map_some]
          refine ⟨_, rfl, ?_, ?_⟩ <;>
            (beta_reduce; split
             · split <;> rfl
             · rfl)
      · simp only [if_neg hbr, hd, Option.map_some]
        refine ⟨_, rfl, ?_, ?_⟩ <;> (beta_reduce; rfl)

/-- C3 witness: the amended statement at a concrete closed state. -/
theorem read_after_eof_witness :
    (closeM freshSt).2.eof = true ∧ (closeM freshSt).2.connected = false ∧
    (closeM freshSt).2.reconnectTries = 0 ∧
    (∃ r, readImplM emptyEnv (0 + 1) 0 (closeM freshSt).2 3 false = some r ∧
      r.ret = 0 ∧ r.out = []) :=
  ⟨rfl, rfl, rfl,
    read_after_eof_disconnected_returns_zero emptyEnv 0 (closeM freshSt).2 3 false
      rfl rfl rfl⟩

/-- C4 amended: whenever `open(url)` returns failure, the Transport
Handle's final state depends on the failure path: on a non-OK HTTP
status the session is ended (`http.end()`, connection released), but on
a chunked-mode first-chunk-header parse failure `open` returns false
*without* releasing the session — the connection established by the GET
stays live (`connected = oe.httpOk`). -/
theorem open_failure_connection_state (oe : OpenEnv) (st : St)
    (h : oe.httpOk = false ∨
      (oe.hasTE = true ∧ oe.teChunked = true ∧ (getChunkSizeL oe.body).1 = -1)) :
    (openModel oe st).ok = false ∧ (openModel oe st).st.connected = oe.httpOk := by
  rcases h with h | ⟨h1, h2, h3⟩
  · simp [openModel, h]
  · by_cases hok : oe.httpOk = false
    · simp [openModel, hok]
    · rw [Bool.not_eq_false] at hok
      simp [openModel, hok, h1, h2, getChunkSize, h3]

/-- C4 witness: the amended statement at the concrete chunked-parse
failure input. -/
theorem open_failure_witness :
    (c4Env.hasTE = true ∧ c4Env.teChunked = true ∧ (getChunkSizeL c4Env.body).1 = -1) ∧
    ((openModel c4Env freshSt).ok = false ∧
      (openModel c4Env freshSt).st.connected = c4Env.httpOk) :=
  ⟨⟨rfl, rfl, rfl⟩,
    open_failure_connection_state c4Env freshSt (Or.inr ⟨rfl, rfl, rfl⟩)⟩

/-- Helper: an `open` with a non-OK HTTP status fails, releases the
connection, and performs no chunk-header wait. -/
theorem openModel_fail_proj (oe : OpenEnv) (st : St) (h : oe.httpOk = false) :
    (openModel oe st).ok = false ∧ (openModel oe st).st.connected = false ∧
    (openModel oe st).wGCS = false := by
  simp [openModel, h]

/-- Helper: when every `open` fails at the HTTP level, the reconnect
loop performs exactly `n` attempts and ends disconnected. -/
theorem reconnect_allfail (env : Env) (hf : ∀ j, (env j).httpOk = false) :
    ∀ n k st, st.connected = false →
      (reconnect env k st n).1.connected = false ∧ (reconnect env k st n).2.2.1 = n ∧
      (reconnect env k st n).2.2.2 = false := by
  intro n
  induction n with
  | zero => intro k st h; exact ⟨h, rfl, rfl⟩
  | succ m ih =>
    intro k st h
    have hp := openModel_fail_proj (env k) st (hf k)
    have h2 := ih (k + 1) (openModel (env k) st).st hp.2.1
    rw [reconnect]
    simp only [hp.1, Bool.false_eq_true, if_false]
    exact ⟨by simp [h2.1], by simp [h2.2.1], by simp [h2.2.2, hp.2.2]⟩

/-- Helper: a first successful `open` stops the reconnect loop after
exactly one attempt. -/
theorem reconnect_first_ok (env : Env) (k : Nat) (st : St) (n : Nat)
    (hok : (openModel (env k) st).ok = true) :
    reconnect env k st (n + 1) =
      ((openModel (env k) st).st, k + 1, 1, (openModel (env k) st).wGCS) := by
  rw [reconnect]
  simp [hok]

/-- C7 amended: on a disconnected handle, if every reconnect attempt's
`open` fails at the HTTP level, exactly `reconnectTries` attempts are
made and the read returns 0 bytes; and a successful first `open` (here:
OK status, regular mode, with data available) stops the sequence after
exactly one attempt and the read proceeds.  However the code's loop
stops on `open` returning true and its final verdict checks
`http.connected()` rather than the attempts' outcomes, so "all attempts
fail ⟹ read returns 0" does not hold in general
(`c7_counterexample`). -/
theorem reconnect_policy_attempts (env : Env) (fuel : Nat) (st : St) (len : Nat)
    (hdis : st.connected = false) :
    ((∀ j, (env j).httpOk = false) →
      ∃ r, readInternal env (fuel + 1) 0 st len false = some r ∧
        r.opens = st.reconnectTries ∧ r.ret = 0 ∧ r.out = []) ∧
    ((env 0).httpOk = true → (env 0).hasTE = false → (env 0).body ≠ [] →
      1 ≤ st.reconnectTries →
      ∃ r, readInternal env (fuel + 1) 0 st len false = some r ∧ r.opens = 1) := by
  constructor
  · intro hf
    have hr := reconnect_allfail env hf st.reconnectTries 0
      { st with connected := false, stream := [] } rfl
    rw [readInternal]
    simp only [hdis, Bool.false_eq_true, if_false]
    simp [hr.1]
    exact hr.2.1
  · intro h1 h2 h3 h4
    obtain ⟨m, hm⟩ : ∃ m, st.reconnectTries = m + 1 :=
      ⟨st.reconnectTries - 1, by omega⟩
    rw [readInternal]
    simp only [hdis, Bool.false_eq_true, if_false, hm]
    set stD : St := { st with connected := false, stream := [], reconnectTries := m + 1 }
      with hstD
    have hopen : (openModel (env 0) stD).ok = true := by
      simp [openModel, h1, h2]
    have hc1 : (openModel (env 0) stD).st.connected = true := by
      simp [openModel, h1, h2]
    have hpos : (openModel (env 0) stD).st.pos = 0 := by
      simp [openModel, h1, h2]
    have hstream : (openModel (env 0) stD).st.stream = (env 0).body := by
      simp [openModel, h1, h2]
    rw [reconnect_first_ok env 0 stD m hopen]
    set st1 := (openModel (env 0) stD).st with hst1
    simp only [hc1, Bool.not_true, Bool.false_eq_true, if_false]
    by_cases hsz : 0 < st1.size ∧ st1.size ≤ (st1.pos : Int)
    · rw [if_pos hsz]
      exact ⟨_, rfl, rfl⟩
    · rw [if_neg hsz]
      have hav : ¬ st1.stream.length = 0 := by
        rw [hstream]
        simpa using h3
      simp only [decide_eq_false hav, Bool.and_false, Bool.false_eq_true, if_false, if_neg hav]
      exact ⟨_, rfl, rfl⟩

/-- C7 witness: the amended statement at a concrete disconnected
state. -/
theorem reconnect_policy_witness :
    c7St.connected = false ∧
    (((∀ j, (emptyEnv j).httpOk = false) →
      ∃ r, readInternal emptyEnv (0 + 1) 0 c7St 2 false = some r ∧
        r.opens = c7St.reconnectTries ∧ r.ret = 0 ∧ r.out = []) ∧
    ((emptyEnv 0).httpOk = true → (emptyEnv 0).hasTE = false → (emptyEnv 0).body ≠ [] →
      1 ≤ c7St.reconnectTries →
      ∃ r, readInternal emptyEnv (0 + 1) 0 c7St 2 false = some r ∧ r.opens = 1)) :=
  ⟨rfl, reconnect_policy_attempts emptyEnv 0 c7St 2 rfl⟩

/-- Helper: a non-blocking `readInternal` never enters the 500 ms wait
loop (its condition includes `!nonBlock`), and when the session is
connected it performs no reconnect, hence no chunk-header wait
either. -/
theorem readInternal_nb_flags (env : Env) :
    ∀ fuel k st len r, readInternal env fuel k st len true = some r →
      r.wRI = false ∧ (st.connected = true → r.wGCS = false) := by
  intro fuel k st len r hr
  cases fuel with
  | zero => simp [readInternal] at hr
  | succ f =>
    simp only [readInternal] at hr
    by_cases hc : st.connected = true
    · simp only [hc, if_true, Bool.not_true, Bool.false_eq_true, if_false, Bool.false_and,
        Bool.not_false] at hr
      split at hr
      · cases hr
        exact ⟨rfl, fun _ => rfl⟩
      · split at hr
        · cases hr
          exact ⟨rfl, fun _ => rfl⟩
        · cases hr
          exact ⟨by simp, fun _ => rfl⟩
    · rw [Bool.not_eq_true] at hc
      simp only [hc, Bool.false_eq_true, if_false, Bool.not_true, Bool.false_and] at hr
      split at hr
      · cases hr
        exact ⟨rfl, fun h => absurd h (by simp [hc])⟩
      · split at hr
        · cases hr
          exact ⟨rfl, fun h => absurd h (by simp [hc])⟩
        · split at hr
          · cases hr
            exact ⟨rfl, fun h => absurd h (by simp [hc])⟩
          · cases hr
            exact ⟨by simp, fun h => absurd h (by simp [hc])⟩

/-- C6 amended: `readNonBlock` never enters the 500 ms data wait of the
low-level read primitive (in either mode), and on a live connection in
regular mode it enters no wait loop at all; but in chunked mode (or
when a reconnect re-opens a chunked resource) the chunk-size-header
parse may still enter its own 1.5 s bounded wait even for the
non-blocking variant (`c6_counterexample`). -/
theorem readNonBlock_wait_flags (env : Env) (fuel : Nat) (st : St) (len : Nat) (r : RIRes)
    (hr : readNonBlockM env fuel st len = some r) :
    r.wRI = false ∧
    (st.connected = true → st.impl = Impl.regular → r.wGCS = false) := by
  rcases himpl : st.impl with _ | _
  · simp only [readNonBlockM, readImplM, himpl] at hr
    have h := readInternal_nb_flags env fuel 0 st len r hr
    exact ⟨h.1, fun hc _ => h.2 hc⟩
  · refine ⟨?_, fun _ hreg => by cases hreg⟩
    simp only [readNonBlockM, readImplM, himpl] at hr
    rw [readChunked] at hr
    split at hr
    · cases hr; rfl
    · split at hr
      · split at hr
        · rcases Option.map_eq_some'.mp hr with ⟨r0, h0, hfr⟩
          have hf := readInternal_nb_flags env fuel 0 st _ r0 h0
          subst hfr
          dsimp only
          split
          · split
            · exact hf.1
            · exact hf.1
          · exact hf.1
        · rcases Option.map_eq_some'.mp hr with ⟨r0, h0, hfr⟩
          cases h0
          subst hfr
          dsimp only
          split
          · split
            · rfl
            · rfl
          · rfl
      · rcases Option.map_eq_some'.mp hr with ⟨r0, h0, hfr⟩
        have hf := readInternal_nb_flags env fuel 0 st _ r0 h0
        subst hfr
        simpa using hf.1

/-- C6 witness: the amended statement at a concrete non-blocking read on
a live regular session. -/
theorem readNonBlock_wait_flags_witness :
    ∃ r, readNonBlockM emptyEnv 1 c1St 4 = some r ∧ r.wRI = false ∧
      (c1St.connected = true → c1St.impl = Impl.regular → r.wGCS = false) := by
  rcases hsome : readNonBlockM emptyEnv 1 c1St 4 with _ | r
  · exact absurd hsome (by decide)
  · exact ⟨r, rfl, (readNonBlock_wait_flags emptyEnv 1 c1St 4 r hsome).1,
      (readNonBlock_wait_flags emptyEnv 1 c1St 4 r hsome).2⟩

/-- Helper: on a live connection with at least one buffered byte, the
low-level read primitive returns without any retry; it delivers at most
`len` bytes, those bytes are the first bytes of the buffer, and
`next_chunk` is untouched. -/
theorem readInternal_conn (env : Env) (fuel k : Nat) (st : St) (len : Nat) (nb : Bool)
    (hc : st.connected = true) (hs : st.stream ≠ []) :
    ∃ r, readInternal env (fuel + 1) k st len nb = some r ∧
      r.ret ≤ len ∧ r.out = st.stream.take r.ret ∧
      r.st.next_chunk = st.next_chunk := by
  have hav : ¬ st.stream.length = 0 := by simpa using hs
  rw [readInternal]
  simp only [hc, if_true, Bool.not_true, Bool.false_eq_true, if_false]
  by_cases hsz : 0 < st.size ∧ st.size ≤ (st.pos : Int)
  · rw [if_pos hsz]
    exact ⟨_, rfl, Nat.zero_le _, rfl, rfl⟩
  · rw [if_neg hsz]
    simp only [decide_eq_false hav, Bool.and_false, Bool.false_eq_true, if_false, if_neg hav]
    refine ⟨_, rfl, ?_, rfl, rfl⟩
    dsimp only
    split
    · split at *
      · omega
      · omega
    · split
      · omega
      · omega

/-- C10: in chunked mode, a single `read`/`readNonBlock` call on a live
session with buffered data never crosses a chunk boundary: the byte
count returned is at most the minimum of the requested length and the
bytes remaining in the current chunk (`next_chunk`) at the start of the
call, and the bytes delivered are exactly the first `ret` buffered
bytes, i.e. they come from the current chunk's remaining payload; the
next chunk's bytes can only be delivered by a later call, after its
header is parsed. -/
theorem readChunked_single_chunk (env : Env) (fuel : Nat) (st : St) (len : Nat) (nb : Bool)
    (hnc0 : 0 ≤ st.next_chunk) (hnc1 : st.next_chunk < 2 ^ 31)
    (hc : st.connected = true) (hs : st.stream ≠ []) :
    ∃ r, readChunked env (fuel + 1) 0 st len nb = some r ∧
      (r.ret : Int) ≤ st.next_chunk ∧ r.ret ≤ len ∧
      r.out = st.stream.take r.ret := by
  have htn : (st.next_chunk % (2 ^ 32 : Int)).toNat = st.next_chunk.toNat := by
    rw [Int.emod_eq_of_lt hnc0 (by omega)]
  have htn2 : (st.next_chunk.toNat : Int) = st.next_chunk := Int.toNat_of_nonneg hnc0
  rw [readChunked]
  by_cases hl : len = 0
  · rw [if_pos hl]
    exact ⟨_, rfl, hnc0, Nat.zero_le _, rfl⟩
  · rw [if_neg hl]
    by_cases hbr : (st.next_chunk % (2 ^ 32 : Int)).toNat ≤ len
    · rw [if_pos hbr]
      by_cases hz : st.next_chunk ≠ 0
      · rw [if_pos hz]
        rcases readInternal_conn env fuel 0 st ((st.next_chunk % (2 ^ 32 : Int)).toNat) nb hc hs
          with ⟨r0, h0, hret, hout, hnc'⟩
        rw [h0, Option.map_some']
        dsimp only
        refine ⟨_, rfl, ?_, ?_, ?_⟩
        · split
          · split
            · simp
              omega
            · dsimp only
              omega
          · dsimp only
            omega
        · split
          · split
            · simp
            · dsimp only
              omega
          · dsimp only
            omega
        · split
          · split
            · simp
            · exact hout
          · exact hout
      · rw [if_neg hz]
        push_neg at hz
        rw [Option.map_some']
        dsimp only
        refine ⟨_, rfl, ?_, ?_, ?_⟩
        · split
          · split
            · simp
              omega
            · dsimp only
              omega
          · dsimp only
            omega
        · split
          · split
            · simp
            · dsimp only
              omega
          · dsimp only
            omega
        · split
          · split
            · simp
            · simp
          · simp [hz] at *
    · rw [if_neg hbr]
      push_neg at hbr
      rcases readInternal_conn env fuel 0 st len nb hc hs with ⟨r0, h0, hret, hout, hnc'⟩
      rw [h0, Option.map_some']
      dsimp only
      refine ⟨_, rfl, ?_, hret, hout⟩
      dsimp only
      omega

/-- C10 witness: the statement at a concrete chunked state. -/
theorem readChunked_single_chunk_witness :
    ((0 : Int) ≤ c10St.next_chunk ∧ c10St.next_chunk < 2 ^ 31 ∧
      c10St.connected = true ∧ c10St.stream ≠ []) ∧
    (∃ r, readChunked emptyEnv (0 + 1) 0 c10St 10 false = some r ∧
      (r.ret : Int) ≤ c10St.next_chunk ∧ r.ret ≤ 10 ∧
      r.out = c10St.stream.take r.ret) :=
  ⟨⟨by decide, by decide, rfl, by decide⟩,
    readChunked_single_chunk emptyEnv 0 c10St 10 false (by decide) (by decide) rfl
      (by decide)⟩

/-- One blocking read step on the synthetic chunked stream: from the
state with `d` bytes delivered, a read of `len ≥ 1` bytes delivers the
next `min len (chunkRem d)` payload bytes and moves to the state with
that many more bytes delivered; from the state with all 9 bytes
delivered it consumes the trailer, fails the next header parse
(end-of-stream), closes, and returns 0 bytes. -/
theorem wiki_step (d len : Nat) (hd : d ≤ 9) (h1 : 1 ≤ len) :
    (readM emptyEnv 1 (absSt d) len).map (fun r => (r.ret, r.out, r.st)) =
      some (if d = 9 then (0, [], closedSt)
            else (min len (chunkRem d), (wikipedia.drop d).take (min len (chunkRem d)),
                  absSt (d + min len (chunkRem d)))) := by
  interval_cases d
  · rw [if_neg (by decide : ¬ (0 = 9))]
    have hcr : chunkRem 0 = 4 := rfl
    rw [hcr]
    by_cases hbig : 4 ≤ len
    · rw [Nat.min_eq_right hbig]
      show (readChunked emptyEnv 1 0 (absSt 0) len false).map _ = _
      rw [readChunked, if_neg (show ¬ len = 0 from by omega),
        if_pos (show ((absSt 0).next_chunk % (2 ^ 32 : Int)).toNat ≤ len from by
          have h : ((absSt 0).next_chunk % (2 ^ 32 : Int)).toNat = 4 := by decide
          omega),
        if_pos (show (absSt 0).next_chunk ≠ 0 from by decide)]
      decide
    · have h2 : len ≤ 3 := by omega
      interval_cases len <;> decide
  · rw [if_neg (by decide : ¬ (1 = 9))]
    have hcr : chunkRem 1 = 3 := rfl
    rw [hcr]
    by_cases hbig : 3 ≤ len
    · rw [Nat.min_eq_right hbig]
      show (readChunked emptyEnv 1 0 (absSt 1) len false).map _ = _
      rw [readChunked, if_neg (show ¬ len = 0 from by omega),
        if_pos (show ((absSt 1).next_chunk % (2 ^ 32 : Int)).toNat ≤ len from by
          have h : ((absSt 1).next_chunk % (2 ^ 32 : Int)).toNat = 3 := by decide
          omega),
        if_pos (show (absSt 1).next_chunk ≠ 0 from by decide)]
      decide
    · have h2 : len ≤ 2 := by omega
      interval_cases len <;> decide
  · rw [if_neg (by decide : ¬ (2 = 9))]
    have hcr : chunkRem 2 = 2 := rfl
    rw [hcr]
    by_cases hbig : 2 ≤ len
    · rw [Nat.min_eq_right hbig]
      show (readChunked emptyEnv 1 0 (absSt 2) len false).map _ = _
      rw [readChunked, if_neg (show ¬ len = 0 from by omega),
        if_pos (show ((absSt 2).next_chunk % (2 ^ 32 : Int)).toNat ≤ len from by
          have h : ((absSt 2).next_chunk % (2 ^ 32 : Int)).toNat = 2 := by decide
          omega),
        if_pos (show (absSt 2).next_chunk ≠ 0 from by decide)]
      decide
    · have h2 : len ≤ 1 := by omega
      interval_cases len <;> decide
  · rw [if_neg (by decide : ¬ (3 = 9))]
    have hcr : chunkRem 3 = 1 := rfl
    rw [hcr]
    have hbig : 1 ≤ len := h1
    rw [Nat.min_eq_right hbig]
    show (readChunked emptyEnv 1 0 (absSt 3) len false).map _ = _
    rw [readChunked, if_neg (show ¬ len = 0 from by omega),
      if_pos (show ((absSt 3).next_chunk % (2 ^ 32 : Int)).toNat ≤ len from by
        have h : ((absSt 3).next_chunk % (2 ^ 32 : Int)).toNat = 1 := by decide
        omega),
      if_pos (show (absSt 3).next_chunk ≠ 0 from by decide)]
    decide
  · rw [if_neg (by decide : ¬ (4 = 9))]
    have hcr : chunkRem 4 = 5 := rfl
    rw [hcr]
    by_cases hbig : 5 ≤ len
    · rw [Nat.min_eq_right hbig]
      show (readChunked emptyEnv 1 0 (absSt 4) len false).map _ = _
      rw [readChunked, if_neg (show ¬ len = 0 from by omega),
        if_pos (show ((absSt 4).next_chunk % (2 ^ 32 : Int)).toNat ≤ len from by
          have h : ((absSt 4).next_chunk % (2 ^ 32 : Int)).toNat = 5 := by decide
          omega),
        if_pos (show (absSt 4).next_chunk ≠ 0 from by decide)]
      decide
    · have h2 : len ≤ 4 := by omega
      interval_cases len <;> decide
  · rw [if_neg (by decide : ¬ (5 = 9))]
    have hcr : chunkRem 5 = 4 := rfl
    rw [hcr]
    by_cases hbig : 4 ≤ len
    · rw [Nat.min_eq_right hbig]
      show (readChunked emptyEnv 1 0 (absSt 5) len false).map _ = _
      rw [readChunked, if_neg (show ¬ len = 0 from by omega),
        if_pos (show ((absSt 5).next_chunk % (2 ^ 32 : Int)).toNat ≤ len from by
          have h : ((absSt 5).next_chunk % (2 ^ 32 : Int)).toNat = 4 := by decide
          omega),
        if_pos (show (absSt 5).next_chunk ≠ 0 from by decide)]
      decide
    · have h2 : len ≤ 3 := by omega
      interval_cases len <;> decide
  · rw [if_neg (by decide : ¬ (6 = 9))]
    have hcr : chunkRem 6 = 3 := rfl
    rw [hcr]
    by_cases hbig : 3 ≤ len
    · rw [Nat.min_eq_right hbig]
      show (readChunked emptyEnv 1 0 (absSt 6) len false).map _ = _
      rw [readChunked, if_neg (show ¬ len = 0 from by omega),
        if_pos (show ((absSt 6).next_chunk % (2 ^ 32 : Int)).toNat ≤ len from by
          have h : ((absSt 6).next_chunk % (2 ^ 32 : Int)).toNat = 3 := by decide
          omega),
        if_pos (show (absSt 6).next_chunk ≠ 0 from by decide)]
      decide
    · have h2 : len ≤ 2 := by omega
      interval_cases len <;> decide
  · rw [if_neg (by decide : ¬ (7 = 9))]
    have hcr : chunkRem 7 = 2 := rfl
    rw [hcr]
    by_cases hbig : 2 ≤ len
    · rw [Nat.min_eq_right hbig]
      show (readChunked emptyEnv 1 0 (absSt 7) len false).map _ = _
      rw [readChunked, if_neg (show ¬ len = 0 from by omega),
        if_pos (show ((absSt 7).next_chunk % (2 ^ 32 : Int)).toNat ≤ len from by
          have h : ((absSt 7).next_chunk % (2 ^ 32 : Int)).toNat = 2 := by decide
          omega),
        if_pos (show (absSt 7).next_chunk ≠ 0 from by decide)]
      decide
    · have h2 : len ≤ 1 := by omega
      interval_cases len <;> decide
  · rw [if_neg (by decide : ¬ (8 = 9))]
    have hcr : chunkRem 8 = 1 := rfl
    rw [hcr]
    have hbig : 1 ≤ len := h1
    rw [Nat.min_eq_right hbig]
    show (readChunked emptyEnv 1 0 (absSt 8) len false).map _ = _
    rw [readChunked, if_neg (show ¬ len = 0 from by omega),
      if_pos (show ((absSt 8).next_chunk % (2 ^ 32 : Int)).toNat ≤ len from by
        have h : ((absSt 8).next_chunk % (2 ^ 32 : Int)).toNat = 1 := by decide
        omega),
      if_pos (show (absSt 8).next_chunk ≠ 0 from by decide)]
    decide
  · rw [if_pos rfl]
    show (readChunked emptyEnv 1 0 (absSt 9) len false).map _ = _
    rw [readChunked, if_neg (show ¬ len = 0 from by omega),
      if_pos (show ((absSt 9).next_chunk % (2 ^ 32 : Int)).toNat ≤ len from by
        have h : ((absSt 9).next_chunk % (2 ^ 32 : Int)).toNat = 0 := by decide
        omega),
      if_neg (show ¬ (absSt 9).next_chunk ≠ 0 from by decide)]
    decide

/-- The live abstract states are distinct from the closed state. -/
theorem absSt_ne_closed (x : Nat) : absSt x ≠ closedSt := by
  intro h
  have := congrArg St.eof h
  simp [absSt, closedSt] at this

/-- The measure of a live abstract state. -/
theorem mOf_absSt (x y : Nat) : mOf (absSt x) y = 10 - y := by
  unfold mOf
  rw [if_neg (absSt_ne_closed x)]

/-- The measure of the closed state. -/
theorem mOf_closed (y : Nat) : mOf closedSt y = 0 := by
  unfold mOf
  rw [if_pos rfl]

/-- Bounds on the per-state chunk remainder of the synthetic stream. -/
theorem chunkRem_bound (d : Nat) (h : d < 9) : 1 ≤ chunkRem d ∧ d + chunkRem d ≤ 9 := by
  unfold chunkRem
  split
  · omega
  · split
    · omega
    · omega

/-- Unpacking a projected `Option.map` equation into the result. -/
theorem map_triple (o : Option RIRes) (t : Nat × List Nat × St)
    (h : o.map (fun r => (r.ret, r.out, r.st)) = some t) :
    ∃ r, o = some r ∧ r.ret = t.1 ∧ r.out = t.2.1 ∧ r.st = t.2.2 := by
  rcases o with _ | r
  · simp at h
  · simp only [Option.map_some', Option.some.injEq] at h
    exact ⟨r, rfl, by rw [← h], by rw [← h], by rw [← h]⟩

/-- After the synthetic chunked session has closed, every further read
returns 0 bytes and leaves the state unchanged. -/
theorem closed_read (len : Nat) :
    readM emptyEnv 1 closedSt len = some ⟨0, [], closedSt, 0, 0, 0, false, false⟩ := by
  show readChunked emptyEnv 1 0 closedSt len false = _
  rw [readChunked]
  by_cases hl : len = 0
  · rw [if_pos hl]
  · rw [if_neg hl]
    by_cases hbr : (closedSt.next_chunk % (2 ^ 32 : Int)).toNat ≤ len
    · rw [if_pos hbr, if_pos (by decide : closedSt.next_chunk ≠ 0)]
      have hd : readInternal emptyEnv 1 0 closedSt
          ((closedSt.next_chunk % (2 ^ 32 : Int)).toNat) false =
          some ⟨0, [], closedSt, 0, 0, 0, false, false⟩ := by decide
      rw [hd, Option.map_some']
      decide
    · rw [if_neg hbr]
      have hd2 : readInternal emptyEnv 1 0 closedSt len false =
          some ⟨0, [], closedSt, 0, 0, 0, false, false⟩ :=
        readInternal_disc emptyEnv 0 0 closedSt len false rfl rfl
      rw [hd2, Option.map_some']
      decide

/-- The freshly opened synthetic session is the abstract state with no
bytes delivered yet. -/
theorem wikiSt_abs : wikiSt = absSt 0 := by decide

/-- Invariant for any sequence of blocking reads on the synthetic
chunked stream: the run succeeds, stays within the abstract states, the
concatenated output is exactly the payload bytes delivered so far, and
each positive-length call strictly decreases the measure until the
session is closed. -/
theorem wiki_run (lens : List Nat) (h : ∀ l ∈ lens, 1 ≤ l) :
    ∀ d st, d ≤ 9 → Good st d →
      ∃ outs st' d', runReads emptyEnv 1 st lens = some (outs, st') ∧
        d' ≤ 9 ∧ d ≤ d' ∧ Good st' d' ∧
        outs.flatten = (wikipedia.drop d).take (d' - d) ∧
        mOf st' d' + min lens.length (mOf st d) ≤ mOf st d := by
  induction lens with
  | nil =>
    intro d st hd hg
    exact ⟨[], st, d, rfl, hd, le_refl d, hg, by simp, by simp⟩
  | cons l ls ih =>
    intro d st hd hg
    have hl1 : 1 ≤ l := h l (by simp)
    have hls : ∀ x ∈ ls, 1 ≤ x := fun x hx => h x (by simp [hx])
    rcases hg with ⟨hd9, hst⟩ | ⟨hd9, hst⟩
    · subst hst
      by_cases hd' : d = 9
      · subst hd'
        have hstep := wiki_step 9 l (by omega) hl1
        rw [if_pos rfl] at hstep
        rcases map_triple _ _ hstep with ⟨r, hsome, hret, hout, hstate⟩
        rcases ih hls 9 closedSt (by omega) (Or.inr ⟨rfl, rfl⟩) with
          ⟨outs2, st2, d2, hrun, hd2, hle2, hg2, hjoin2, hm2⟩
        refine ⟨r.out :: outs2, st2, d2, ?_, hd2, by omega, hg2, ?_, ?_⟩
        · rw [runReads, hsome, Option.some_bind]
          have hstate2 : r.st = closedSt := hstate
          rw [hstate2, hrun, Option.map_some']
        · have hout2 : r.out = [] := hout
          rw [hout2]
          simpa using hjoin2
        · rw [mOf_absSt]
          rw [mOf_closed] at hm2
          simp only [List.length_cons]
          omega
      · have hstep := wiki_step d l (by omega) hl1
        rw [if_neg hd'] at hstep
        rcases map_triple _ _ hstep with ⟨r, hsome, hret, hout, hstate⟩
        have hcb := chunkRem_bound d (by omega)
        have hm1 : 1 ≤ min l (chunkRem d) := le_min hl1 hcb.1
        have hdm : d + min l (chunkRem d) ≤ 9 := by omega
        rcases ih hls (d + min l (chunkRem d)) (absSt (d + min l (chunkRem d))) hdm
          (Or.inl ⟨hdm, rfl⟩) with
          ⟨outs2, st2, d2, hrun, hd2, hle2, hg2, hjoin2, hm2⟩
        refine ⟨r.out :: outs2, st2, d2, ?_, hd2, by omega, hg2, ?_, ?_⟩
        · rw [runReads, hsome, Option.some_bind]
          have hstate2 : r.st = absSt (d + min l (chunkRem d)) := hstate
          rw [hstate2, hrun, Option.map_some']
        · have hout2 : r.out = (wikipedia.drop d).take (min l (chunkRem d)) := hout
          rw [List.flatten_cons, hout2, hjoin2]
          rw [show wikipedia.drop (d + min l (chunkRem d)) =
                (wikipedia.drop d).drop (min l (chunkRem d)) from by
              rw [List.drop_drop, Nat.add_comm]]
          rw [← List.take_add]
          congr 1
          omega
        · rw [mOf_absSt]
          rw [mOf_absSt] at hm2
          simp only [List.length_cons]
          omega
    · subst hd9
      subst hst
      have hsome := closed_read l
      rcases ih hls 9 closedSt (by omega) (Or.inr ⟨rfl, rfl⟩) with
        ⟨outs2, st2, d2, hrun, hd2, hle2, hg2, hjoin2, hm2⟩
      refine ⟨[] :: outs2, st2, d2, ?_, hd2, by omega, hg2, ?_, ?_⟩
      · rw [runReads, hsome, Option.some_bind]
        dsimp only
        rw [hrun, Option.map_some']
      · simpa using hjoin2
      · rw [mOf_closed]
        rw [mOf_closed] at hm2
        simp only [List.length_cons]
        omega

/-- C5: a chunked session opened on a byte source delivering exactly
`"4\r\nWiki\r\n5\r\npedia\r\n0\r\n\r\n"`, read with any slicing of
requested lengths (each call requesting at least one byte, at least 10
calls so the stream is drained), yields exactly the concatenation
`"Wikipedia"` — 9 bytes in total — after which every further read call
returns 0 bytes (end-of-stream). -/
theorem wiki_roundtrip (lens : List Nat) (hlen : ∀ l ∈ lens, 1 ≤ l)
    (hn : 10 ≤ lens.length) :
    (openModel wikiEnvOpen freshSt).ok = true ∧
    ∃ outs, runReads emptyEnv 1 wikiSt lens = some (outs, closedSt) ∧
      outs.flatten = wikipedia ∧ wikipedia.length = 9 ∧
      ∀ len, readM emptyEnv 1 closedSt len = some ⟨0, [], closedSt, 0, 0, 0, false, false⟩ := by
  refine ⟨by decide, ?_⟩
  rcases wiki_run lens hlen 0 wikiSt (by omega) (Or.inl ⟨by omega, wikiSt_abs⟩) with
    ⟨outs, st', d', hrun, hd9, hle, hg, hjoin, hm⟩
  have hmw : mOf wikiSt 0 = 10 := by rw [wikiSt_abs, mOf_absSt]
  rw [hmw] at hm
  have hm0 : mOf st' d' = 0 := by omega
  have hcl : st' = closedSt ∧ d' = 9 := by
    rcases hg with ⟨h9, hst⟩ | ⟨h9, hst⟩
    · exfalso
      rw [hst, mOf_absSt] at hm0
      omega
    · exact ⟨hst, h9⟩
  rw [hcl.1] at hrun
  rw [hcl.2] at hjoin
  refine ⟨outs, hrun, ?_, by decide, closed_read⟩
  rw [hjoin]
  decide

/-- C5 witness: the round-trip at the concrete slicing of ten 3-byte
reads. -/
theorem wiki_roundtrip_witness :
    ((∀ l ∈ List.replicate 10 3, 1 ≤ l) ∧ 10 ≤ (List.replicate 10 3).length) ∧
    ((openModel wikiEnvOpen freshSt).ok = true ∧
    ∃ outs, runReads emptyEnv 1 wikiSt (List.replicate 10 3) = some (outs, closedSt) ∧
      outs.flatten = wikipedia ∧ wikipedia.length = 9 ∧
      ∀ len, readM emptyEnv 1 closedSt len = some ⟨0, [], closedSt, 0, 0, 0, false, false⟩) :=
  ⟨⟨by decide, by decide⟩, wiki_roundtrip (List.replicate 10 3) (by decide) (by decide)⟩
